import Mathlib

/-!
Shallow embedding of the vertex-ai-answers-proxy service (src/app.py and src/model.py).

Modelling conventions:
* Python strings are Lean `String` (or `List Char` where character-level reasoning is
  needed), Python `None`-able values are `Option`, and raised exceptions are `Except PyErr`.
* The external Discovery Engine service and the Cloud Storage backend are opaque oracle
  functions supplied as arguments to each operation.
* Pydantic models (`model.py`) become structures whose dynamic attribute table is made
  explicit, because `app.py` reads attributes that the `Request` model does not declare,
  and such a read raises `AttributeError` in Python.
* Side effects that the claims count (create-session calls, answer-query calls, scheduling
  of the archive write) are returned as an explicit `Event` trace.
-/

/-- Python exceptions that the proxy's code paths can raise. -/
inductive PyErr where
  | attributeError (attr : String)
  | keyError (key : String)
  | typeError
  | valueError (msg : String)
  deriving DecidableEq, Repr

/-- The `Session` pydantic model of src/model.py (every field optional, default `None`). -/
structure Session where
  name : Option String
  state : Option String
  userPseudoId : Option String
  startTime : Option String
  endTime : Option String
  deriving DecidableEq, Repr

/-- The `Request` pydantic model of src/model.py.  Its only declared fields are
`preamble`, `query`, `session`, `language_code` (default `"es"`),
`ignore_adversarial_query` (default `True`) and `ignore_non_summary_seeking_query`
(default `True`).  A freshly parsed body that omits an optional field carries the
stated default (`some "es"` / `some true`), or `none` for `preamble`/`session`. -/
structure Request where
  preamble : Option String
  query : String
  session : Option Session
  languageCode : Option String
  ignoreAdversarialQuery : Option Bool
  ignoreNonSummarySeekingQuery : Option Bool
  deriving DecidableEq, Repr

/-- A dynamic Python value, as far as the attribute reads in src/app.py need. -/
inductive PyValue where
  | none
  | bool (b : Bool)
  | int (n : Int)
  | str (s : String)
  | session (s : Session)
  deriving DecidableEq, Repr

/-- Lift an optional string to the dynamic value it holds in Python. -/
def pyOfOptStr : Option String → PyValue
  | Option.none => PyValue.none
  | some s => PyValue.str s

/-- Lift an optional bool to the dynamic value it holds in Python. -/
def pyOfOptBool : Option Bool → PyValue
  | Option.none => PyValue.none
  | some b => PyValue.bool b

/-- The attribute table of a `Request` instance: exactly the fields declared in
src/model.py are present; every other name is absent (pydantic stores no others,
so reading it raises `AttributeError`). -/
def Request.pyattr (r : Request) (a : String) : Option PyValue :=
  if a = "preamble" then some (pyOfOptStr r.preamble)
  else if a = "query" then some (PyValue.str r.query)
  else if a = "session" then
    some (match r.session with
          | Option.none => PyValue.none
          | some s => PyValue.session s)
  else if a = "language_code" then some (pyOfOptStr r.languageCode)
  else if a = "ignore_adversarial_query" then some (pyOfOptBool r.ignoreAdversarialQuery)
  else if a = "ignore_non_summary_seeking_query" then
    some (pyOfOptBool r.ignoreNonSummarySeekingQuery)
  else Option.none

/-- Python attribute access `request.<a>`: `AttributeError` when the model has no such
attribute. -/
def pyGetAttr (r : Request) (a : String) : Except PyErr PyValue :=
  match r.pyattr a with
  | some v => Except.ok v
  | Option.none => Except.error (PyErr.attributeError a)

/-! ## JSON-like dictionaries

`MessageToDict` (used in `enrich_answer_with_metadata`) produces nested Python dicts,
lists and scalars.  `JVal` models those values; dict subscription models Python's
`d[k]` with its `KeyError`/`TypeError` behaviour, and dict assignment models `d[k] = v`
(replace in place, or append preserving insertion order). -/

inductive JVal where
  | null
  | bool (b : Bool)
  | num (n : Int)
  | str (s : String)
  | arr (elems : List JVal)
  | obj (fields : List (String × JVal))

/-- First-match association-list lookup, as a Python dict read. -/
def lookupKey (k : String) : List (String × JVal) → Option JVal
  | [] => Option.none
  | (k₂, v) :: rest => if k₂ = k then some v else lookupKey k rest

/-- Python `d[k]`: `KeyError` on a missing key, `TypeError` when `d` is not a dict. -/
def getItem (d : JVal) (k : String) : Except PyErr JVal :=
  match d with
  | JVal.obj fs =>
      match lookupKey k fs with
      | some v => Except.ok v
      | Option.none => Except.error (PyErr.keyError k)
  | _ => Except.error PyErr.typeError

/-- Replace the value of the first occurrence of `k`, else append `(k, v)` —
Python dict assignment preserving insertion order. -/
def setPair (k : String) (v : JVal) : List (String × JVal) → List (String × JVal)
  | [] => [(k, v)]
  | (k₂, v₂) :: rest => if k₂ = k then (k₂, v) :: rest else (k₂, v₂) :: setPair k v rest

/-- Python `d[k] = v` on a dict (never called on non-dicts by the modelled code paths). -/
def setItem (d : JVal) (k : String) (v : JVal) : JVal :=
  match d with
  | JVal.obj fs => JVal.obj (setPair k v fs)
  | other => other

/-! ## URI parser (`parse_gcs_uri`, src/app.py lines 90-106)

The source matches `re.match(r"^gs://(?P<bucket>[^/]+)/(?P<name>.*)$", uri)`.
Python regex semantics that matter here: `[^/]` matches any character except `'/'`
(including `'\n'`); `.` matches any character except `'\n'`; `$` matches at the end of
the string or just before a single newline that ends the string.  Hence the `name`
group matches `rest` exactly when `rest` contains no newline, and matches
`rest = r ++ "\n"` (newline-free `r`) with the trailing newline stripped. -/

/-- The characters of the fixed scheme prefix `gs://`. -/
def gsSchemeChars : List Char := ['g', 's', ':', '/', '/']

/-- Semantics of the anchored tail pattern `(?P<name>.*)$` of the source regex:
`some n` exactly when the pattern matches, where `n` is the captured group. -/
def matchDotStarTail : List Char → Option (List Char)
  | [] => some []
  | c :: cs =>
    if c = '\n' then
      match cs with
      | [] => some []
      | _ :: _ => Option.none
    else
      (matchDotStarTail cs).map (fun n => c :: n)

/-- `parse_gcs_uri` over character lists: `^gs://` prefix, then the non-empty
slash-free bucket group (greedy up to the first `'/'`), the literal `'/'`, and the
`.*$` name group.  On no match, `ValueError("Invalid Google Cloud Storage URI: ...")`. -/
def parseGcsUriChars (uri : List Char) : Except PyErr (List Char × List Char) :=
  match uri with
  | 'g' :: 's' :: ':' :: '/' :: '/' :: t =>
    match t.dropWhile (fun c => !(c == '/')) with
    | '/' :: namePart =>
      if t.takeWhile (fun c => !(c == '/')) = [] then
        Except.error (PyErr.valueError ("Invalid Google Cloud Storage URI: " ++ String.mk uri))
      else
        match matchDotStarTail namePart with
        | some n => Except.ok (t.takeWhile (fun c => !(c == '/')), n)
        | Option.none =>
          Except.error (PyErr.valueError ("Invalid Google Cloud Storage URI: " ++ String.mk uri))
    | _ => Except.error (PyErr.valueError ("Invalid Google Cloud Storage URI: " ++ String.mk uri))
  | _ => Except.error (PyErr.valueError ("Invalid Google Cloud Storage URI: " ++ String.mk uri))

/-- `parse_gcs_uri` on strings, returning `(bucket, object_name)`. -/
def parse_gcs_uri (uri : String) : Except PyErr (String × String) :=
  match parseGcsUriChars uri.data with
  | Except.ok (b, n) => Except.ok (String.mk b, String.mk n)
  | Except.error e => Except.error e

/-- The shape named by the claim: `scheme://<bucket>/<rest>` with the bucket segment
non-empty and delimited by the first `'/'` after the scheme separator (the scheme of
the storage backend in the source being `gs`). -/
def GcsShape (s : List Char) : Prop :=
  ∃ bucket rest, bucket ≠ [] ∧ '/' ∉ bucket ∧ s = gsSchemeChars ++ bucket ++ '/' :: rest

/-! ## Metadata lookup (`get_metadata`, src/app.py lines 142-164)

The storage backend is an oracle from `(bucket, object_name)` to an optional flat
string map; `Option.none` covers every way the body's `try` can yield no metadata
(absent blob — `blob.metadata` on `None` raises `AttributeError`, caught —, a cloud
error, also caught, or a blob whose metadata is unset, returned as `None` directly). -/

def GcsStore := String → String → Option (List (String × String))

/-- The body of `get_metadata` on a string URI (the un-memoized computation): parse the
URI and consult the store; every failure path is caught and becomes `None` (`JVal.null`). -/
def get_metadata_body (store : GcsStore) (uri : String) : JVal :=
  match parse_gcs_uri uri with
  | Except.ok (bucket, name₂) =>
    match store bucket name₂ with
    | some m => JVal.obj (m.map (fun p => (p.1, JVal.str p.2)))
    | Option.none => JVal.null
  | Except.error _ => JVal.null

/-- `get_metadata` as called on a dict value: a non-string argument makes `re.match`
raise `TypeError`, which the catch-all `except` turns into `None` as well. -/
def get_metadata (store : GcsStore) (uri : JVal) : JVal :=
  match uri with
  | JVal.str s => get_metadata_body store s
  | _ => JVal.null

/-! ### `@lru_cache(maxsize=None)` on `get_metadata`

The cache maps each URI to the result of its first (and only) underlying evaluation.
To express "at most one underlying fetch per URI, even when the backend's contents
change later", the underlying function receives the index of the fetch being performed
(`fetchLog.length`), so an oracle `Nat → GcsStore` can present a different store to
every successive real fetch. -/

structure LruState where
  cache : List (String × JVal)
  fetchLog : List String

/-- An `lru_cache`-wrapped unary function: on a hit return the cached value unchanged,
on a miss evaluate the underlying function once, record the fetch, and cache forever. -/
def lruGet (f : Nat → String → JVal) (s : LruState) (uri : String) : JVal × LruState :=
  match lookupKey uri s.cache with
  | some v => (v, s)
  | Option.none =>
    let v := f s.fetchLog.length uri
    (v, LruState.mk (s.cache ++ [(uri, v)]) (s.fetchLog ++ [uri]))

/-- Run a sequence of cached lookups from a given state, collecting the results. -/
def runLookups (f : Nat → String → JVal) (s : LruState) : List String → List JVal × LruState
  | [] => ([], s)
  | u :: us =>
    let r := lruGet f s u
    let rest := runLookups f r.2 us
    (r.1 :: rest.1, rest.2)

/-- The memoized `get_metadata` of the source, run on a sequence of URIs starting from
the empty cache of a fresh process, against a per-fetch-indexed store oracle. -/
def runGetMetadataCached (stores : Nat → GcsStore) (uris : List String) : List JVal × LruState :=
  runLookups (fun n uri => get_metadata_body (stores n) uri) (LruState.mk [] []) uris

/-! ## Answer enrichment (`enrich_answer_with_metadata`, src/app.py lines 167-194)

The `try` block wraps both the `answer_dict["answer"]["references"]` subscriptions and
the whole `for` loop, and catches only `KeyError`.  Mutation of a reference dict in
place is modelled by rebuilding the reference list and writing it back. -/

/-- One loop iteration body: read `reference["chunkInfo"]["documentMetadata"]["uri"]`,
then assign `reference["chunkInfo"]["objectMetadata"] = get_metadata(uri)`. -/
def enrichReference (store : GcsStore) (r : JVal) : Except PyErr JVal :=
  match getItem r "chunkInfo" with
  | Except.error e => Except.error e
  | Except.ok ci =>
    match getItem ci "documentMetadata" with
    | Except.error e => Except.error e
    | Except.ok dm =>
      match getItem dm "uri" with
      | Except.error e => Except.error e
      | Except.ok uri =>
        Except.ok (setItem r "chunkInfo" (setItem ci "objectMetadata" (get_metadata store uri)))

/-- The `for` loop: references already processed keep their enrichment; the first
iteration that raises stops the loop, leaving that reference and all later ones
untouched, and reports the exception. -/
def enrichLoop (store : GcsStore) : List JVal → List JVal × Option PyErr
  | [] => ([], Option.none)
  | r :: rs =>
    match enrichReference store r with
    | Except.ok r₂ =>
      let rest := enrichLoop store rs
      (r₂ :: rest.1, rest.2)
    | Except.error e => (r :: rs, some e)

/-- `enrich_answer_with_metadata` on the dict produced by `MessageToDict`: a `KeyError`
anywhere inside the `try` is logged and swallowed (the dict, with whatever mutations
already happened, is still returned); any other exception propagates. -/
def enrich_answer_with_metadata (store : GcsStore) (answer_dict : JVal) : Except PyErr JVal :=
  match getItem answer_dict "answer" with
  | Except.error (PyErr.keyError _) => Except.ok answer_dict
  | Except.error e => Except.error e
  | Except.ok a =>
    match getItem a "references" with
    | Except.error (PyErr.keyError _) => Except.ok answer_dict
    | Except.error e => Except.error e
    | Except.ok (JVal.arr refs) =>
      match enrichLoop store refs with
      | (refs₂, Option.none) =>
        Except.ok (setItem answer_dict "answer" (setItem a "references" (JVal.arr refs₂)))
      | (refs₂, some (PyErr.keyError _)) =>
        Except.ok (setItem answer_dict "answer" (setItem a "references" (JVal.arr refs₂)))
      | (_, some e) => Except.error e
    | Except.ok _ => Except.error PyErr.typeError

/-- A reference carries the uri path exactly when all three subscriptions succeed. -/
def HasUriPath (r : JVal) : Prop :=
  ∃ ci dm uri, getItem r "chunkInfo" = Except.ok ci ∧
    getItem ci "documentMetadata" = Except.ok dm ∧ getItem dm "uri" = Except.ok uri

/-- The value under a successful `Except` (only ever applied under an `isOk` hypothesis). -/
def okValue : Except PyErr JVal → JVal
  | Except.ok v => v
  | Except.error _ => JVal.null

/-- Decidable test: the raw answer dict has no references to enrich — the `"answer"` key
is absent, the `"references"` key is absent, or the references list is empty (requiring
along the spine the dict shapes that `MessageToDict` guarantees). -/
def noReferences (d : JVal) : Bool :=
  match d with
  | JVal.obj fs =>
    match lookupKey "answer" fs with
    | Option.none => true
    | some (JVal.obj afs) =>
      match lookupKey "references" afs with
      | Option.none => true
      | some (JVal.arr []) => true
      | some _ => false
    | some _ => false
  | _ => false

/-! ## The answer endpoint pipeline (src/app.py lines 197-269)

Environment configuration, the Discovery Engine oracle, and the downstream-effect
trace.  The `answer` handler runs: API-key gate → session resolution (lines 218-221) →
upstream request construction (lines 225-259) → `answer_query` → fire-and-forget
archive scheduling → enrichment → `JSONResponse`. -/

/-- Process environment: `API_KEY`, `GOOGLE_CLOUD_PROJECT`, `GCS_BUCKET`, `LOCATION`. -/
structure Env where
  apiKey : String
  projectId : String
  bucketName : String
  location : String

/-- The shape handed to `discoveryengine.AnswerQueryRequest` by the handler; the
field values are the dynamic values read off the inbound `Request`. -/
structure AnswerQueryRequestM where
  servingConfig : String
  sessionName : String
  disableQueryRephraser : PyValue
  maxRephraseSteps : PyValue
  ignoreAdversarialQuery : PyValue
  ignoreNonAnswerSeekingQuery : PyValue
  ignoreLowRelevantContent : PyValue
  modelVersion : PyValue
  promptPreamble : PyValue
  includeCitations : PyValue
  answerLanguageCode : PyValue
  maxReturnResults : PyValue
  queryText : PyValue

/-- The external Discovery Engine service: `create_session` takes
`(user_pseudo_id, parent_resource_path)` and returns the new session's name;
`answer_query` returns the `MessageToDict` image of the raw answer. -/
structure Upstream where
  createSession : Option String → String → String
  answerQuery : AnswerQueryRequestM → JVal

/-- Downstream effects the claims count, in the order the handler performs them. -/
inductive Event where
  | createSessionCall (userPseudoId : Option String) (engineId : String)
  | answerQueryCall
  | archiveScheduled (sessionName : String)
  deriving DecidableEq, Repr

/-- `create_session` (src/app.py lines 66-87): one remote call against the engine's
full resource path, returning the created session's name. -/
def create_session (env : Env) (up : Upstream) (user_pseudo_id : Option String)
    (engine_id : String) : String :=
  up.createSession user_pseudo_id
    ("projects/" ++ env.projectId ++ "/locations/" ++ env.location ++
      "/collections/default_collection/engines/" ++ engine_id)

/-- Session resolution (src/app.py lines 218-221): `request.session.name` is read
unconditionally, so an absent session object raises `AttributeError` (`NoneType` has
no attribute `name`); a present name is used unchanged; otherwise one create-session
call is made with `(request.session.user_pseudo_id, engine_id)`. -/
def resolveSession (env : Env) (up : Upstream) (engine_id : String) (req : Request) :
    List Event × Except PyErr String :=
  match req.session with
  | Option.none => ([], Except.error (PyErr.attributeError "name"))
  | some s =>
    match s.name with
    | some n => ([], Except.ok n)
    | Option.none =>
      ([Event.createSessionCall s.userPseudoId engine_id],
        Except.ok (create_session env up s.userPseudoId engine_id))

/-- The serving-config path built at src/app.py line 223. -/
def servingConfigPath (env : Env) (engine_id : String) : String :=
  "projects/" ++ env.projectId ++ "/locations/" ++ env.location ++
    "/collections/default_collection/engines/" ++ engine_id ++
    "/servingConfigs/default_serving_config"

/-- Construction of the upstream request (src/app.py lines 225-259): the request
attributes are read in source evaluation order; the first read of an attribute the
`Request` model does not declare raises `AttributeError` and aborts the handler. -/
def buildAnswerQueryRequest (req : Request) (session_name serving_config : String) :
    Except PyErr AnswerQueryRequestM := do
  let disable ← pyGetAttr req "disable_query_rephraser"
  let maxSteps ← pyGetAttr req "max_rephrase_steps"
  let igAdv ← pyGetAttr req "ignore_adversarial_query"
  let igNonAns ← pyGetAttr req "ignore_non_answer_seeking_query"
  let igLow ← pyGetAttr req "ignore_low_relevant_content"
  let modelVer ← pyGetAttr req "model_version"
  let pre ← pyGetAttr req "preamble"
  let incCit ← pyGetAttr req "include_citations"
  let lang ← pyGetAttr req "language_code"
  let maxRes ← pyGetAttr req "max_return_results"
  let q ← pyGetAttr req "query"
  Except.ok
    (AnswerQueryRequestM.mk serving_config session_name disable maxSteps igAdv igNonAns
      igLow modelVer pre incCit lang maxRes q)

/-- The authorized part of the `answer` handler (src/app.py lines 218-269): resolve the
session, build and issue the upstream request, schedule the archive write, enrich, and
return the enriched dict.  The event trace lists the downstream effects performed
before the pipeline completed or raised. -/
def answerBody (env : Env) (up : Upstream) (store : GcsStore) (engine_id : String)
    (req : Request) : List Event × Except PyErr JVal :=
  match resolveSession env up engine_id req with
  | (evs, Except.error e) => (evs, Except.error e)
  | (evs, Except.ok session_name) =>
    match buildAnswerQueryRequest req session_name (servingConfigPath env engine_id) with
    | Except.error e => (evs, Except.error e)
    | Except.ok aqr =>
      let raw := up.answerQuery aqr
      let evs₂ := evs ++ [Event.answerQueryCall, Event.archiveScheduled session_name]
      match enrich_answer_with_metadata store raw with
      | Except.ok enriched => (evs₂, Except.ok enriched)
      | Except.error e => (evs₂, Except.error e)

/-- HTTP-level outcomes of the endpoint: an `HTTPException` with a status code, or an
unhandled Python exception (which the framework turns into a 500 response). -/
inductive HttpErr where
  | httpStatus (code : Nat)
  | unhandled (e : PyErr)
  deriving DecidableEq, Repr

/-- The full `POST /answer/{engine_id}` endpoint.  The API-key gate models
`fastapi.security.APIKeyHeader(name="X-API-Key")` with its default `auto_error=True`
composed with `get_api_key` (src/app.py lines 109-128): an absent or empty header
short-circuits inside the security scheme with `403 Not authenticated` before
`get_api_key` runs; a non-empty header not equal to `API_KEY` raises
`401 Invalid or missing API Key`; only a valid key reaches the handler body. -/
def answer (env : Env) (up : Upstream) (store : GcsStore) (api_key_header : Option String)
    (engine_id : String) (req : Request) : List Event × Except HttpErr JVal :=
  match api_key_header with
  | Option.none => ([], Except.error (HttpErr.httpStatus 403))
  | some k =>
    if k = "" then ([], Except.error (HttpErr.httpStatus 403))
    else if k = env.apiKey then
      match answerBody env up store engine_id req with
      | (evs, Except.ok v) => (evs, Except.ok v)
      | (evs, Except.error e) => (evs, Except.error (HttpErr.unhandled e))
    else ([], Except.error (HttpErr.httpStatus 401))

/-- `JSONResponse(content=answer)` (src/app.py line 269) serializes its content dict
verbatim.  The decorator's `response_model_exclude_none=True` configures response-model
serialization only, and returning a `Response` object directly bypasses the response
model entirely, so no `None`-valued key is dropped. -/
def jsonResponseContent (content : JVal) : JVal := content

/-! ## Audit archive (`write_to_gcs`, src/app.py lines 42-64)

`MessageToJson(Message.pb(answer), ...)` runs before the `try` block, so only blob
creation and upload are protected; the serializer and uploader are oracles. -/

/-- What `write_to_gcs` emits on its diagnostic channel. -/
inductive LogEvent where
  | infoWritten (path : String)
  | errorWriting (e : PyErr)
  deriving DecidableEq, Repr

/-- The archive object path: fixed prefix, session name, ISO-formatted timestamp. -/
def archivePath (session_name now_iso : String) : String :=
  "vertexai-answers-proxy/logs/" ++ session_name ++ "/" ++ now_iso ++ ".json"

/-- `write_to_gcs`: serialize (unprotected), then upload inside `try/except Exception`,
logging success or swallowing the failure.  The result is the emitted log, or the
exception the coroutine itself raises. -/
def write_to_gcs (serialize : JVal → Except PyErr String)
    (upload : String → String → Except PyErr Unit) (raw : JVal)
    (session_name now_iso : String) : Except PyErr (List LogEvent) :=
  match serialize raw with
  | Except.error e => Except.error e
  | Except.ok payload =>
    match upload (archivePath session_name now_iso) payload with
    | Except.ok _ => Except.ok [LogEvent.infoWritten (archivePath session_name now_iso)]
    | Except.error e => Except.ok [LogEvent.errorWriting e]

/-! ## Small helpers and concrete fixtures used by the theorems below -/

/-- Whether an `Except` computation completed without raising. -/
def isOkE {α : Type} : Except PyErr α → Bool
  | Except.ok _ => true
  | Except.error _ => false

/-- Number of occurrences of a string in a list. -/
def countOcc (u : String) : List String → Nat
  | [] => 0
  | x :: xs => (if x = u then 1 else 0) + countOcc u xs

/-- Invariant of the memoization state: every URI was fetched at most once, and is
absent from the cache exactly when it was never fetched. -/
def LruInv (s : LruState) : Prop :=
  ∀ u : String, countOcc u s.fetchLog ≤ 1 ∧
    (lookupKey u s.cache = Option.none ↔ u ∉ s.fetchLog)

/-- A fixed process environment. -/
def envX : Env := Env.mk "secret-key" "proj" "bucket" "global"

/-- A Discovery Engine oracle returning a fixed session name and an empty answer. -/
def upX : Upstream :=
  Upstream.mk (fun _ _ => "projects/proj/sessions/abc") (fun _ => JVal.obj [])

/-- A storage backend with no metadata at all. -/
def storeEmpty : GcsStore := fun _ _ => Option.none

/-- A storage backend holding metadata `{author: x}` for object `o` of bucket `b`. -/
def storeB : GcsStore := fun bucket name₂ =>
  if bucket = "b" then (if name₂ = "o" then some [("author", "x")] else Option.none)
  else Option.none

/-- A storage oracle whose contents change between fetches: the first real fetch sees
no metadata, every later one sees `storeB`. -/
def storesFlaky : Nat → GcsStore := fun n => if n = 0 then storeEmpty else storeB

/-- A session object carrying only a name. -/
def sessionNamed (n : String) : Session :=
  Session.mk (some n) Option.none Option.none Option.none Option.none

/-- A session object carrying only a user pseudo id. -/
def sessionWithUser (u : String) : Session :=
  Session.mk Option.none Option.none (some u) Option.none Option.none

/-- The JSON body `{"query": "hello"}` parsed by pydantic: optional fields absent,
model defaults filled in. -/
def reqQueryOnly : Request :=
  Request.mk Option.none "hello" Option.none (some "es") (some true) (some true)

/-- The JSON body `{"query": "hello", "session": {"name": "projects/p/sessions/s1"}}`. -/
def reqWithSessionName : Request :=
  Request.mk Option.none "hello" (some (sessionNamed "projects/p/sessions/s1"))
    (some "es") (some true) (some true)

/-- The JSON body `{"query": "hi", "session": {"userPseudoId": "u1"}}`. -/
def reqWithUserOnly : Request :=
  Request.mk Option.none "hi" (some (sessionWithUser "u1")) (some "es") (some true) (some true)

/-- A reference whose chunk info lacks `documentMetadata` (hence no uri path). -/
def refNoUri : JVal := JVal.obj [("chunkInfo", JVal.obj [("content", JVal.str "c1")])]

/-- A reference whose chunk info carries the uri `gs://b/o`. -/
def refWithUri : JVal :=
  JVal.obj [("chunkInfo",
    JVal.obj [("documentMetadata", JVal.obj [("uri", JVal.str "gs://b/o")])])]

/-- A reference whose chunk info carries the unparseable uri `not-a-uri`. -/
def refBadUri : JVal :=
  JVal.obj [("chunkInfo",
    JVal.obj [("documentMetadata", JVal.obj [("uri", JVal.str "not-a-uri")])])]

/-- A raw answer dict with two references: the first lacks the uri path, the second
has uri `gs://b/o` (whose metadata `storeB` does hold). -/
def answerTwoRefs : JVal :=
  JVal.obj [("answer", JVal.obj [("references", JVal.arr [refNoUri, refWithUri])])]

/-- A raw answer dict with a single reference whose uri does not parse. -/
def answerBadUriRef : JVal :=
  JVal.obj [("answer", JVal.obj [("references", JVal.arr [refBadUri])])]

/-- What enriching `answerBadUriRef` produces: the failed lookup is attached as a
`null`-valued `objectMetadata` entry. -/
def enrichedBadUriRef : JVal :=
  JVal.obj [("answer", JVal.obj [("references", JVal.arr
    [JVal.obj [("chunkInfo",
      JVal.obj [("documentMetadata", JVal.obj [("uri", JVal.str "not-a-uri")]),
        ("objectMetadata", JVal.null)])]])])]

/-- A serializer oracle that always raises. -/
def serializeFail : JVal → Except PyErr String := fun _ => Except.error PyErr.typeError

/-- A serializer oracle that always succeeds. -/
def serializeOk : JVal → Except PyErr String := fun _ => Except.ok "{}"

/-- An uploader oracle that always raises. -/
def uploadFail : String → String → Except PyErr Unit :=
  fun _ _ => Except.error (PyErr.valueError "boom")

/-- An uploader oracle that always succeeds. -/
def uploadOk : String → String → Except PyErr Unit := fun _ _ => Except.ok ()

/-! ## Claim theorems -/

/-- C1: the valid body `{"query": "hello"}` (session object absent, which the data
model allows) makes the handler raise `AttributeError` at `request.session.name`
before any downstream call — the upstream answer call is never reached, solely
because an optional field is absent. -/
theorem c1_valid_request_crashes_before_upstream_call :
    answerBody envX upX storeEmpty "engine1" reqQueryOnly =
      ([], Except.error (PyErr.attributeError "name")) := rfl

/-- C2: for a request that survives session resolution, the construction of the
upstream request raises `AttributeError` at its very first attribute read
(`request.disable_query_rephraser`), because the `Request` model declares none of the
fields the defaults would come from; no upstream request with defaulted fields is
ever built. -/
theorem c2_build_crashes_on_undeclared_fields :
    buildAnswerQueryRequest reqWithSessionName "projects/p/sessions/s1"
        (servingConfigPath envX "engine1") =
      Except.error (PyErr.attributeError "disable_query_rephraser") := rfl

/-- C3 counterexample: for the request `{"query": "hello"}` — in which `session.name`
is not supplied — session resolution performs zero create-session calls and raises
instead of making exactly one create-session call and using its result, contrary to
the claim. -/
theorem c3_counterexample_absent_session :
    resolveSession envX upX "engine1" reqQueryOnly =
      ([], Except.error (PyErr.attributeError "name")) := rfl

/-- C5 counterexample: enriching `answerTwoRefs` with `storeB` leaves the dict
completely unchanged — the first reference's missing uri path raises `KeyError`,
aborting the loop, so the second reference is not enriched even though its uri is
present and its metadata is available (second conjunct), contrary to the claim that a
failure on one reference never aborts enrichment of the rest. -/
theorem c5_counterexample_missing_path_aborts_rest :
    enrich_answer_with_metadata storeB answerTwoRefs = Except.ok answerTwoRefs ∧
    get_metadata storeB (JVal.str "gs://b/o") = JVal.obj [("author", JVal.str "x")] :=
  ⟨rfl, rfl⟩

/-- C6 counterexample: a request with the `X-API-Key` header missing is rejected with
status 403 (the security scheme's `Not authenticated`), not the 401 the claim states
(no downstream effect occurs either way). -/
theorem c6_counterexample_missing_header_gives_403 :
    answer envX upX storeEmpty Option.none "engine1" reqQueryOnly =
      ([], Except.error (HttpErr.httpStatus 403)) := rfl

/-- C7: enriching an answer whose single reference has an unparseable uri attaches
`objectMetadata = None`, and `JSONResponse` serializes the dict verbatim (the
decorator's `response_model_exclude_none=True` is bypassed by returning a `Response`
directly), so the output contains the key `objectMetadata` mapped to `null`. -/
theorem c7_null_valued_key_reaches_output :
    enrich_answer_with_metadata storeEmpty answerBadUriRef = Except.ok enrichedBadUriRef ∧
    jsonResponseContent enrichedBadUriRef = enrichedBadUriRef ∧
    getItem (JVal.obj [("documentMetadata", JVal.obj [("uri", JVal.str "not-a-uri")]),
        ("objectMetadata", JVal.null)]) "objectMetadata" = Except.ok JVal.null :=
  ⟨rfl, rfl, rfl⟩

/-- C9 counterexample: an error raised while serializing the raw answer (which the
claim includes in the archive operation) is not logged-and-discarded — it propagates
out of `write_to_gcs`, because `MessageToJson` runs before the `try` block. -/
theorem c9_counterexample_serialization_error_propagates :
    write_to_gcs serializeFail uploadOk (JVal.obj []) "sess" "2026-10-12T00:00:00" =
      Except.error PyErr.typeError := rfl

/-- C3 (amended): for every request whose session object is present, a supplied
`session.name` is returned unchanged with zero create-session calls, and an absent
name causes exactly one create-session call with `(userPseudoId, engine id)` whose
returned session name is used.  (A request with no session object at all instead
raises before any call — see the counterexample.) -/
theorem c3_amended_session_resolution (env : Env) (up : Upstream) (engine_id : String)
    (req : Request) (s : Session) (hs : req.session = some s) :
    (∀ n, s.name = some n → resolveSession env up engine_id req = ([], Except.ok n)) ∧
    (s.name = Option.none →
      resolveSession env up engine_id req =
        ([Event.createSessionCall s.userPseudoId engine_id],
          Except.ok (create_session env up s.userPseudoId engine_id))) := by
  constructor
  · intro n hn
    simp [resolveSession, hs, hn]
  · intro hn
    simp [resolveSession, hs, hn]

/-- Witness for C3 (amended): a supplied name is used with no create call; an absent
name triggers the one create call whose result is used. -/
theorem c3_amended_session_resolution_witness :
    resolveSession envX upX "engine1" reqWithSessionName =
      ([], Except.ok "projects/p/sessions/s1") ∧
    resolveSession envX upX "engine1" reqWithUserOnly =
      ([Event.createSessionCall (some "u1") "engine1"],
        Except.ok (create_session envX upX (some "u1") "engine1")) := by
  constructor
  · exact (c3_amended_session_resolution envX upX "engine1" reqWithSessionName
      (sessionNamed "projects/p/sessions/s1") rfl).1 "projects/p/sessions/s1" rfl
  · exact (c3_amended_session_resolution envX upX "engine1" reqWithUserOnly
      (sessionWithUser "u1") rfl).2 rfl

/-- C6 (amended): an absent or empty `X-API-Key` header is rejected with 403 by the
security scheme, a non-empty header not equal to the configured key with 401 by
`get_api_key`; in every rejected case the event trace is empty — no create-session
call, no answer-query call, no archive scheduling. -/
theorem c6_amended_auth_short_circuits (env : Env) (up : Upstream) (store : GcsStore)
    (engine_id : String) (req : Request) :
    answer env up store Option.none engine_id req =
      ([], Except.error (HttpErr.httpStatus 403)) ∧
    answer env up store (some "") engine_id req =
      ([], Except.error (HttpErr.httpStatus 403)) ∧
    (∀ k, k ≠ "" → k ≠ env.apiKey →
      answer env up store (some k) engine_id req =
        ([], Except.error (HttpErr.httpStatus 401))) := by
  refine ⟨rfl, rfl, ?_⟩
  intro k hk hk₂
  simp [answer, hk, hk₂]

/-- Witness for C6 (amended): a concrete wrong key yields 401 with no downstream
events. -/
theorem c6_amended_auth_short_circuits_witness :
    answer envX upX storeEmpty (some "wrong-key") "engine1" reqQueryOnly =
      ([], Except.error (HttpErr.httpStatus 401)) :=
  (c6_amended_auth_short_circuits envX upX storeEmpty "engine1" reqQueryOnly).2.2
    "wrong-key" (by decide) (by decide)

/-- C9 (amended): once serialization succeeds, `write_to_gcs` never propagates an
error: an upload failure is recorded on the diagnostic log and swallowed, and a
successful upload logs the archive path.  (A serialization error instead propagates
out of the detached coroutine — see the counterexample — though never to the HTTP
response, which was already returned.) -/
theorem c9_amended_upload_errors_swallowed (serialize : JVal → Except PyErr String)
    (upload : String → String → Except PyErr Unit) (raw : JVal)
    (session_name now_iso payload : String) (h : serialize raw = Except.ok payload) :
    isOkE (write_to_gcs serialize upload raw session_name now_iso) = true ∧
    (∀ e, upload (archivePath session_name now_iso) payload = Except.error e →
      write_to_gcs serialize upload raw session_name now_iso =
        Except.ok [LogEvent.errorWriting e]) ∧
    (∀ u, upload (archivePath session_name now_iso) payload = Except.ok u →
      write_to_gcs serialize upload raw session_name now_iso =
        Except.ok [LogEvent.infoWritten (archivePath session_name now_iso)]) := by
  refine ⟨?_, ?_, ?_⟩
  · cases hu : upload (archivePath session_name now_iso) payload with
    | ok u => simp [write_to_gcs, h, hu, isOkE]
    | error e => simp [write_to_gcs, h, hu, isOkE]
  · intro e he
    simp [write_to_gcs, h, he]
  · intro u hu
    simp [write_to_gcs, h, hu]

/-- Witness for C9 (amended): with a succeeding serializer and a failing uploader the
archive operation returns normally, the failure recorded on its log. -/
theorem c9_amended_upload_errors_swallowed_witness :
    write_to_gcs serializeOk uploadFail (JVal.obj []) "sess" "t0" =
      Except.ok [LogEvent.errorWriting (PyErr.valueError "boom")] :=
  (c9_amended_upload_errors_swallowed serializeOk uploadFail (JVal.obj []) "sess" "t0"
    "{}" rfl).2.1 (PyErr.valueError "boom") rfl

/-- Writing back the value a key already holds leaves a dict unchanged. -/
theorem setPair_self (k : String) (v : JVal) (fs : List (String × JVal))
    (h : lookupKey k fs = some v) : setPair k v fs = fs := by
  induction fs with
  | nil => simp [lookupKey] at h
  | cons p rest ih =>
    obtain ⟨k₂, v₂⟩ := p
    by_cases hk : k₂ = k
    · subst hk
      simp [lookupKey] at h
      simp [setPair, h]
    · simp [lookupKey, hk] at h
      simp [setPair, hk, ih h]

/-- C8: enriching a raw answer whose `answer` key is absent, whose `references` key is
absent, or whose references list is empty returns the dict unchanged and raises
nothing. -/
theorem c8_enrichment_identity_without_references (store : GcsStore) (d : JVal)
    (h : noReferences d = true) :
    enrich_answer_with_metadata store d = Except.ok d := by
  cases d with
  | null => simp [noReferences] at h
  | bool b => simp [noReferences] at h
  | num n => simp [noReferences] at h
  | str s => simp [noReferences] at h
  | arr xs => simp [noReferences] at h
  | obj fs =>
    cases h₁ : lookupKey "answer" fs with
    | none => simp [enrich_answer_with_metadata, getItem, h₁]
    | some a =>
      cases a with
      | obj afs =>
        cases h₂ : lookupKey "references" afs with
        | none => simp [enrich_answer_with_metadata, getItem, h₁, h₂]
        | some r =>
          have hr : r = JVal.arr [] := by
            simp only [noReferences, h₁, h₂] at h
            cases r with
            | arr xs =>
              cases xs with
              | nil => rfl
              | cons y ys => simp at h
            | null => simp at h
            | bool b => simp at h
            | num n => simp at h
            | str s => simp at h
            | obj gs => simp at h
          subst hr
          simp [enrich_answer_with_metadata, getItem, h₁, h₂, enrichLoop, setItem,
            setPair_self "references" (JVal.arr []) afs h₂,
            setPair_self "answer" (JVal.obj afs) fs h₁]
      | null => simp [noReferences, h₁] at h
      | bool b => simp [noReferences, h₁] at h
      | num n => simp [noReferences, h₁] at h
      | str s => simp [noReferences, h₁] at h
      | arr xs => simp [noReferences, h₁] at h

/-- Witness for C8: the concrete answer dict `{"answer": {}}` has no references and
enriches to itself. -/
theorem c8_enrichment_identity_without_references_witness :
    enrich_answer_with_metadata storeEmpty (JVal.obj [("answer", JVal.obj [])]) =
      Except.ok (JVal.obj [("answer", JVal.obj [])]) :=
  c8_enrichment_identity_without_references storeEmpty
    (JVal.obj [("answer", JVal.obj [])]) rfl

/-- C5 (amended): the loop processes references in order; when every reference carries
the uri path the whole list is processed and the loop finishes normally — a failed
metadata lookup never aborts, since per the third part an iteration raises exactly
when the uri path is missing, never because of the lookup's outcome; a reference
lacking the path stops the loop there, keeping the enriched prefix and leaving that
reference and all later ones untouched. -/
theorem c5_amended_enrichment_loop (store : GcsStore) :
    (∀ refs : List JVal, (∀ r ∈ refs, isOkE (enrichReference store r) = true) →
      enrichLoop store refs =
        (refs.map (fun r => okValue (enrichReference store r)), Option.none)) ∧
    (∀ (pre : List JVal) (r : JVal) (rest : List JVal) (e : PyErr),
      (∀ x ∈ pre, isOkE (enrichReference store x) = true) →
      enrichReference store r = Except.error e →
      enrichLoop store (pre ++ r :: rest) =
        (pre.map (fun x => okValue (enrichReference store x)) ++ r :: rest, some e)) ∧
    (∀ r : JVal, isOkE (enrichReference store r) = true ↔ HasUriPath r) := by
  refine ⟨?_, ?_, ?_⟩
  · intro refs hall
    induction refs with
    | nil => rfl
    | cons r rs ih =>
      have hr := hall r (List.mem_cons_self r rs)
      cases he : enrichReference store r with
      | ok r₂ =>
        have ihr := ih (fun x hx => hall x (List.mem_cons_of_mem r hx))
        simp [enrichLoop, he, ihr, okValue]
      | error e => simp [he, isOkE] at hr
  · intro pre r rest e hpre hr
    induction pre with
    | nil => simp [enrichLoop, hr]
    | cons p ps ih =>
      have hp := hpre p (List.mem_cons_self p ps)
      cases he : enrichReference store p with
      | ok p₂ =>
        have ihp := ih (fun x hx => hpre x (List.mem_cons_of_mem p hx))
        simp [enrichLoop, he, ihp, okValue]
      | error e₂ => simp [he, isOkE] at hp
  · intro r
    constructor
    · intro hok
      cases h₁ : getItem r "chunkInfo" with
      | error e => simp [enrichReference, h₁, isOkE] at hok
      | ok ci =>
        cases h₂ : getItem ci "documentMetadata" with
        | error e => simp [enrichReference, h₁, h₂, isOkE] at hok
        | ok dm =>
          cases h₃ : getItem dm "uri" with
          | error e => simp [enrichReference, h₁, h₂, h₃, isOkE] at hok
          | ok uri => exact ⟨ci, dm, uri, h₁, h₂, h₃⟩
    · rintro ⟨ci, dm, uri, h₁, h₂, h₃⟩
      simp [enrichReference, h₁, h₂, h₃, isOkE]

/-- Witness for C5 (amended): with the empty prefix, a reference lacking the uri path
stops the loop at once, leaving both it and the later reference untouched. -/
theorem c5_amended_enrichment_loop_witness :
    enrichLoop storeB [refNoUri, refWithUri] =
      ([refNoUri, refWithUri], some (PyErr.keyError "documentMetadata")) := by
  have h := (c5_amended_enrichment_loop storeB).2.1 [] refNoUri [refWithUri]
    (PyErr.keyError "documentMetadata") (by intro x hx; simp at hx) rfl
  simpa using h

/-- The greedy `[^/]+` group: everything before the first `'/'`. -/
theorem takeWhile_until_slash (b r : List Char) (hslash : '/' ∉ b) :
    (b ++ '/' :: r).takeWhile (fun c => !(c == '/')) = b := by
  induction b with
  | nil => simp
  | cons c cs ih =>
    have hc : c ≠ '/' := fun hh => hslash (by simp [hh])
    have hcb : (!(c == '/')) = true := by simp [hc]
    have ih₂ := ih (fun hh => hslash (List.mem_cons_of_mem _ hh))
    simp [List.takeWhile_cons, hcb, ih₂]

/-- What remains at the first `'/'`. -/
theorem dropWhile_until_slash (b r : List Char) (hslash : '/' ∉ b) :
    (b ++ '/' :: r).dropWhile (fun c => !(c == '/')) = '/' :: r := by
  induction b with
  | nil => simp
  | cons c cs ih =>
    have hc : c ≠ '/' := fun hh => hslash (by simp [hh])
    have hcb : (!(c == '/')) = true := by simp [hc]
    have ih₂ := ih (fun hh => hslash (List.mem_cons_of_mem _ hh))
    simp [List.dropWhile_cons, hcb, ih₂]

/-- `.*$` matches a newline-free tail as itself. -/
theorem matchDotStarTail_no_newline (r : List Char) (h : '\n' ∉ r) :
    matchDotStarTail r = some r := by
  induction r with
  | nil => rfl
  | cons c cs ih =>
    have hc : c ≠ '\n' := fun hh => h (by simp [hh])
    have ih₂ := ih (fun hh => h (List.mem_cons_of_mem _ hh))
    simp [matchDotStarTail, hc, ih₂]

/-- `.*$` strips exactly one trailing newline. -/
theorem matchDotStarTail_trailing_newline (r : List Char) (h : '\n' ∉ r) :
    matchDotStarTail (r ++ ['\n']) = some r := by
  induction r with
  | nil => rfl
  | cons c cs ih =>
    have hc : c ≠ '\n' := fun hh => h (by simp [hh])
    have ih₂ := ih (fun hh => h (List.mem_cons_of_mem _ hh))
    simp [matchDotStarTail, hc, ih₂]

/-- `.*$` matches only newline-free tails, possibly followed by one final newline. -/
theorem matchDotStarTail_ok_shape (cs : List Char) :
    ∀ n, matchDotStarTail cs = some n → '\n' ∉ n ∧ (cs = n ∨ cs = n ++ ['\n']) := by
  induction cs with
  | nil =>
    intro n h
    simp [matchDotStarTail] at h
    subst h
    simp
  | cons c cs ih =>
    intro n h
    by_cases hc : c = '\n'
    · subst hc
      cases cs with
      | nil =>
        simp [matchDotStarTail] at h
        subst h
        simp
      | cons d ds => simp [matchDotStarTail] at h
    · simp only [matchDotStarTail, if_neg hc, Option.map_eq_some'] at h
      obtain ⟨m, hm, hn⟩ := h
      obtain ⟨hnl, hcs⟩ := ih m hm
      subst hn
      refine ⟨?_, ?_⟩
      · intro hmem
        rcases List.mem_cons.mp hmem with hh | hh
        · exact hc hh.symm
        · exact hnl hh
      · rcases hcs with h₂ | h₂
        · exact Or.inl (by rw [h₂])
        · exact Or.inr (by simp [h₂])

/-- Every character kept by `takeWhile` satisfies the predicate. -/
theorem mem_takeWhile_not_slash (t : List Char) (x : Char)
    (hx : x ∈ t.takeWhile (fun c => !(c == '/'))) : x ≠ '/' := by
  have hp := List.mem_takeWhile_imp hx
  simpa using hp


/-- Reduction of the parser on an input carrying the scheme prefix. -/
theorem parseGcsUriChars_cons (t : List Char) :
    parseGcsUriChars ('g' :: 's' :: ':' :: '/' :: '/' :: t) =
      (match t.dropWhile (fun c => !(c == '/')) with
       | '/' :: namePart =>
         if t.takeWhile (fun c => !(c == '/')) = [] then
           Except.error (PyErr.valueError ("Invalid Google Cloud Storage URI: " ++
             String.mk ('g' :: 's' :: ':' :: '/' :: '/' :: t)))
         else
           match matchDotStarTail namePart with
           | some n => Except.ok (t.takeWhile (fun c => !(c == '/')), n)
           | Option.none =>
             Except.error (PyErr.valueError ("Invalid Google Cloud Storage URI: " ++
               String.mk ('g' :: 's' :: ':' :: '/' :: '/' :: t)))
       | _ =>
         Except.error (PyErr.valueError ("Invalid Google Cloud Storage URI: " ++
           String.mk ('g' :: 's' :: ':' :: '/' :: '/' :: t)))) := rfl

/-- Successful parse of a well-formed uri with a newline-free object name. -/
theorem parseGcsUriChars_ok (b r : List Char) (hb : b ≠ []) (hslash : '/' ∉ b)
    (hnl : '\n' ∉ r) :
    parseGcsUriChars (gsSchemeChars ++ b ++ '/' :: r) = Except.ok (b, r) := by
  simp only [gsSchemeChars, List.cons_append, List.nil_append]
  simp only [parseGcsUriChars_cons, dropWhile_until_slash b r hslash,
    takeWhile_until_slash b r hslash, matchDotStarTail_no_newline r hnl, if_neg hb]

/-- Successful parse with exactly one trailing newline, which is stripped. -/
theorem parseGcsUriChars_ok_trailing (b r : List Char) (hb : b ≠ []) (hslash : '/' ∉ b)
    (hnl : '\n' ∉ r) :
    parseGcsUriChars (gsSchemeChars ++ b ++ '/' :: (r ++ ['\n'])) = Except.ok (b, r) := by
  simp only [gsSchemeChars, List.cons_append, List.nil_append]
  simp only [parseGcsUriChars_cons, dropWhile_until_slash b (r ++ ['\n']) hslash,
    takeWhile_until_slash b (r ++ ['\n']) hslash,
    matchDotStarTail_trailing_newline r hnl, if_neg hb]

/-- Completeness: every successful parse comes from a well-formed uri — non-empty
slash-free bucket, newline-free name, and the input reassembles from the parts, up to
one stripped trailing newline. -/
theorem parseGcsUriChars_ok_shape (s b n : List Char)
    (h : parseGcsUriChars s = Except.ok (b, n)) :
    b ≠ [] ∧ '/' ∉ b ∧ '\n' ∉ n ∧
      (s = gsSchemeChars ++ b ++ '/' :: n ∨ s = gsSchemeChars ++ b ++ '/' :: (n ++ ['\n'])) := by
  unfold parseGcsUriChars at h
  split at h
  case _ t =>
    split at h
    case _ namePart heq =>
      by_cases hbe : List.takeWhile (fun c => !(c == '/')) t = []
      · rw [if_pos hbe] at h
        exact Except.noConfusion h
      · rw [if_neg hbe] at h
        cases hmt : matchDotStarTail namePart with
        | none =>
          rw [hmt] at h
          exact Except.noConfusion h
        | some n₂ =>
          rw [hmt] at h
          have h₂ : (Except.ok (List.takeWhile (fun c => !(c == '/')) t, n₂) :
              Except PyErr (List Char × List Char)) = Except.ok (b, n) := h
          injection h₂ with h₃
          injection h₃ with hbb hnn
          obtain ⟨hnl, hshape⟩ := matchDotStarTail_ok_shape namePart n (hnn ▸ hmt)
          have hslash : '/' ∉ b := fun hmem =>
            mem_takeWhile_not_slash t '/' (hbb ▸ hmem) rfl
          have happ : List.takeWhile (fun c => !(c == '/')) t ++
              List.dropWhile (fun c => !(c == '/')) t = t :=
            List.takeWhile_append_dropWhile (fun c => !(c == '/')) t
          have ht : t = b ++ '/' :: namePart := by
            rw [heq, hbb] at happ
            exact happ.symm
          refine ⟨fun hbnil => hbe (hbb ▸ hbnil), hslash, hnl, ?_⟩
          rcases hshape with h₄ | h₄
          · exact Or.inl (by simp [gsSchemeChars, ht, h₄])
          · exact Or.inr (by simp [gsSchemeChars, ht, h₄])
    all_goals exact Except.noConfusion h
  all_goals exact Except.noConfusion h

/-- A string not of the `gs://bucket/rest` shape never parses. -/
theorem parseGcsUriChars_fails_outside_shape (s : List Char) (h : ¬ GcsShape s) :
    isOkE (parseGcsUriChars s) = false := by
  cases hp : parseGcsUriChars s with
  | error e => rfl
  | ok bn =>
    obtain ⟨b, n⟩ := bn
    obtain ⟨hb, hslash, hnl, hshape⟩ := parseGcsUriChars_ok_shape s b n hp
    rcases hshape with h₂ | h₂
    · exact absurd ⟨b, n, hb, hslash, by simpa using h₂⟩ h
    · exact absurd ⟨b, n ++ ['\n'], hb, hslash, by simpa using h₂⟩ h

/-- C4 counterexample: `"gs://b/a\nc"` has the claimed shape — scheme separator,
non-empty bucket `b`, rest `a\nc` after the first `'/'` — yet the parser raises
`InvalidLocator` instead of returning `(b, a\nc)`, because `.` in the source regex
does not match the interior newline. -/
theorem c4_counterexample_interior_newline :
    GcsShape "gs://b/a\nc".data ∧
    parseGcsUriChars "gs://b/a\nc".data =
      Except.error (PyErr.valueError "Invalid Google Cloud Storage URI: gs://b/a\nc") := by
  refine ⟨⟨['b'], ['a', '\n', 'c'], ?_, ?_, rfl⟩, rfl⟩
  · decide
  · decide

/-- C4 (amended): for every uri `gs://<bucket>/<rest>` with a non-empty slash-free
bucket, the parser returns `(bucket, rest)` when `rest` has no newline, and returns
`(bucket, rest)` with a single trailing newline stripped; conversely every successful
parse arises that way (so any other newline placement fails), and every string without
the `gs://bucket/rest` shape fails with `InvalidLocator`. -/
theorem c4_amended_uri_parsing :
    (∀ b r : List Char, b ≠ [] → '/' ∉ b → '\n' ∉ r →
      parseGcsUriChars (gsSchemeChars ++ b ++ '/' :: r) = Except.ok (b, r)) ∧
    (∀ b r : List Char, b ≠ [] → '/' ∉ b → '\n' ∉ r →
      parseGcsUriChars (gsSchemeChars ++ b ++ '/' :: (r ++ ['\n'])) = Except.ok (b, r)) ∧
    (∀ s b n : List Char, parseGcsUriChars s = Except.ok (b, n) →
      b ≠ [] ∧ '/' ∉ b ∧ '\n' ∉ n ∧
        (s = gsSchemeChars ++ b ++ '/' :: n ∨ s = gsSchemeChars ++ b ++ '/' :: (n ++ ['\n']))) ∧
    (∀ s : List Char, ¬ GcsShape s → isOkE (parseGcsUriChars s) = false) :=
  ⟨parseGcsUriChars_ok, parseGcsUriChars_ok_trailing, parseGcsUriChars_ok_shape,
    parseGcsUriChars_fails_outside_shape⟩

/-- Witness for C4 (amended): the spec's example uri parses to its bucket and
multi-segment object path; a trailing newline is stripped; a schemeless string fails. -/
theorem c4_amended_uri_parsing_witness :
    parseGcsUriChars "gs://bucket1/docs/report.pdf".data =
      Except.ok ("bucket1".data, "docs/report.pdf".data) ∧
    parseGcsUriChars "gs://b/a\n".data = Except.ok (['b'], ['a']) ∧
    isOkE (parseGcsUriChars ['x']) = false := by
  refine ⟨?_, ?_, ?_⟩
  · exact c4_amended_uri_parsing.1 "bucket1".data "docs/report.pdf".data
      (by decide) (by decide) (by decide)
  · exact c4_amended_uri_parsing.2.1 ['b'] ['a'] (by decide) (by decide) (by decide)
  · refine c4_amended_uri_parsing.2.2.2 ['x'] ?_
    rintro ⟨b, r, -, -, he⟩
    have h₂ : (['x'] : List Char).head? = (gsSchemeChars ++ b ++ '/' :: r).head? :=
      congrArg (fun l => l.head?) he
    simp [gsSchemeChars] at h₂

/-- A key found in the left part of an association list is found in the whole. -/
theorem lookupKey_append_some (k : String) (v : JVal) (l₁ l₂ : List (String × JVal))
    (h : lookupKey k l₁ = some v) : lookupKey k (l₁ ++ l₂) = some v := by
  induction l₁ with
  | nil => simp [lookupKey] at h
  | cons p rest ih =>
    obtain ⟨k₂, v₂⟩ := p
    by_cases hk : k₂ = k
    · simp [lookupKey, hk] at h ⊢
      exact h
    · simp [lookupKey, hk] at h ⊢
      exact ih h

/-- A key absent from the left part of an association list is looked up on the right. -/
theorem lookupKey_append_none (k : String) (l₁ l₂ : List (String × JVal))
    (h : lookupKey k l₁ = Option.none) : lookupKey k (l₁ ++ l₂) = lookupKey k l₂ := by
  induction l₁ with
  | nil => rfl
  | cons p rest ih =>
    obtain ⟨k₂, v₂⟩ := p
    by_cases hk : k₂ = k
    · simp [lookupKey, hk] at h
    · simp [lookupKey, hk] at h ⊢
      exact ih h

/-- A cache hit returns the cached value and leaves the state untouched. -/
theorem lruGet_hit (f : Nat → String → JVal) (s : LruState) (u : String) (v : JVal)
    (h : lookupKey u s.cache = some v) : lruGet f s u = (v, s) := by
  simp [lruGet, h]

/-- Cached entries survive any further lookup. -/
theorem lruGet_preserves (f : Nat → String → JVal) (s : LruState) (u u₂ : String)
    (v : JVal) (h : lookupKey u s.cache = some v) :
    lookupKey u ((lruGet f s u₂).2).cache = some v := by
  cases h₂ : lookupKey u₂ s.cache with
  | some w => simp [lruGet, h₂, h]
  | none =>
    simp only [lruGet, h₂]
    exact lookupKey_append_some u v s.cache _ h

/-- After looking a URI up, its result is in the cache. -/
theorem lruGet_caches (f : Nat → String → JVal) (s : LruState) (u : String) :
    lookupKey u ((lruGet f s u).2).cache = some (lruGet f s u).1 := by
  cases h : lookupKey u s.cache with
  | some v => simp [lruGet, h]
  | none =>
    simp only [lruGet, h]
    rw [lookupKey_append_none u s.cache _ h]
    simp [lookupKey]

/-- Any lookup of a URI already cached as `v` yields `v`, wherever it occurs. -/
theorem runLookups_cached_value (f : Nat → String → JVal) (us : List String)
    (s : LruState) (u : String) (v : JVal) (j : Nat)
    (hc : lookupKey u s.cache = some v) (hj : us[j]? = some u) :
    ((runLookups f s us).1)[j]? = some v := by
  induction us generalizing s j with
  | nil => simp at hj
  | cons u₀ us ih =>
    cases j with
    | zero =>
      simp at hj
      subst hj
      simp [runLookups, lruGet_hit f s u₀ v hc]
    | succ j =>
      simp at hj
      have hc₂ := lruGet_preserves f s u u₀ v hc
      simp only [runLookups, List.getElem?_cons_succ]
      exact ih ((lruGet f s u₀).2) j hc₂ hj

/-- Two lookups of the same URI in one run return the same value. -/
theorem runLookups_first_result (f : Nat → String → JVal) (us : List String)
    (s : LruState) (i j : Nat) (u : String) (hi : us[i]? = some u)
    (hj : us[j]? = some u) (hij : i ≤ j) :
    ((runLookups f s us).1)[j]? = ((runLookups f s us).1)[i]? := by
  induction us generalizing s i j with
  | nil => simp at hi
  | cons u₀ us ih =>
    cases i with
    | zero =>
      simp at hi
      subst hi
      cases j with
      | zero => rfl
      | succ j =>
        simp at hj
        have h₂ := runLookups_cached_value f us ((lruGet f s u₀).2) u₀
          ((lruGet f s u₀).1) j (lruGet_caches f s u₀) hj
        simp only [runLookups, List.getElem?_cons_succ, List.getElem?_cons_zero]
        exact h₂
    | succ i =>
      cases j with
      | zero => exact absurd hij (by omega)
      | succ j =>
        simp at hi hj
        simp only [runLookups, List.getElem?_cons_succ]
        exact ih ((lruGet f s u₀).2) i j hi hj (Nat.le_of_succ_le_succ hij)

/-- Occurrence counts add over concatenation. -/
theorem countOcc_append (u : String) (l₁ l₂ : List String) :
    countOcc u (l₁ ++ l₂) = countOcc u l₁ + countOcc u l₂ := by
  induction l₁ with
  | nil => simp [countOcc]
  | cons x xs ih => simp [countOcc, ih, Nat.add_assoc]

/-- A string absent from a list occurs zero times in it. -/
theorem countOcc_eq_zero_of_not_mem (u : String) (l : List String) (h : u ∉ l) :
    countOcc u l = 0 := by
  induction l with
  | nil => rfl
  | cons x xs ih =>
    have hx : x ≠ u := fun hh => h (by simp [hh])
    have h₂ : u ∉ xs := fun hh => h (List.mem_cons_of_mem _ hh)
    simp [countOcc, hx, ih h₂]

/-- One cached lookup preserves the memoization invariant. -/
theorem lruGet_preserves_inv (f : Nat → String → JVal) (s : LruState) (u₂ : String)
    (hinv : LruInv s) : LruInv ((lruGet f s u₂).2) := by
  cases h₂ : lookupKey u₂ s.cache with
  | some v => simpa [lruGet, h₂] using hinv
  | none =>
    intro u
    simp only [lruGet, h₂]
    by_cases hu₂ : u = u₂
    · subst hu₂
      have hnot : u ∉ s.fetchLog := (hinv u).2.mp h₂
      refine ⟨?_, ?_, ?_⟩
      · rw [countOcc_append, countOcc_eq_zero_of_not_mem u s.fetchLog hnot]
        simp [countOcc]
      · intro hl
        rw [lookupKey_append_none u s.cache _ h₂] at hl
        simp [lookupKey] at hl
      · intro hmem
        exact absurd (by simp) hmem
    · have hu := hinv u
      have hne : u₂ ≠ u := fun hh => hu₂ hh.symm
      refine ⟨?_, ?_, ?_⟩
      · rw [countOcc_append]
        have hz : countOcc u [u₂] = 0 := by simp [countOcc, hne]
        rw [hz]
        simpa using hu.1
      · intro hl
        have hc : lookupKey u s.cache = Option.none := by
          cases hc₂ : lookupKey u s.cache with
          | none => rfl
          | some w =>
            rw [lookupKey_append_some u w s.cache _ hc₂] at hl
            exact absurd hl (by simp)
        intro hmem
        rcases List.mem_append.mp hmem with hm | hm
        · exact (hu.2.mp hc) hm
        · simp at hm
          exact hu₂ hm
      · intro hmem
        have hm₁ : u ∉ s.fetchLog := fun hh => hmem (List.mem_append.mpr (Or.inl hh))
        rw [lookupKey_append_none u s.cache _ (hu.2.mpr hm₁)]
        simp [lookupKey, hne]

/-- Every state reached by a run of cached lookups satisfies the invariant. -/
theorem runLookups_preserves_inv (f : Nat → String → JVal) (us : List String)
    (s : LruState) (hinv : LruInv s) : LruInv ((runLookups f s us).2) := by
  induction us generalizing s with
  | nil => exact hinv
  | cons u₀ us ih =>
    simp only [runLookups]
    exact ih ((lruGet f s u₀).2) (lruGet_preserves_inv f s u₀ hinv)

/-- The fresh process state satisfies the memoization invariant. -/
theorem lruInv_init : LruInv (LruState.mk [] []) := by
  intro u
  refine ⟨?_, ?_⟩
  · simp [countOcc]
  · simp [lookupKey]

/-- C10: running the memoized `get_metadata` on any sequence of URIs, every lookup of
a URI returns exactly what its first lookup returned — even against a storage oracle
whose contents change between fetches — and the underlying parse-and-fetch runs at
most once per URI for the whole process lifetime. -/
theorem c10_metadata_lookup_memoized (stores : Nat → GcsStore) (uris : List String)
    (i j : Nat) (u : String) (hi : uris[i]? = some u) (hj : uris[j]? = some u)
    (hij : i ≤ j) :
    ((runGetMetadataCached stores uris).1)[j]? =
      ((runGetMetadataCached stores uris).1)[i]? ∧
    countOcc u ((runGetMetadataCached stores uris).2).fetchLog ≤ 1 := by
  constructor
  · exact runLookups_first_result (fun n uri => get_metadata_body (stores n) uri) uris
      (LruState.mk [] []) i j u hi hj hij
  · exact ((runLookups_preserves_inv (fun n uri => get_metadata_body (stores n) uri)
      uris (LruState.mk [] []) lruInv_init) u).1

/-- Witness for C10: against `storesFlaky` — whose first fetch finds nothing and whose
later fetches would find `{author: x}` — both lookups of `gs://b/o` return `null`:
the failed first result is cached permanently, and only one fetch ever happens. -/
theorem c10_metadata_lookup_memoized_witness :
    ((runGetMetadataCached storesFlaky ["gs://b/o", "gs://b/o"]).1)[1]? =
      ((runGetMetadataCached storesFlaky ["gs://b/o", "gs://b/o"]).1)[0]? ∧
    countOcc "gs://b/o"
      ((runGetMetadataCached storesFlaky ["gs://b/o", "gs://b/o"]).2).fetchLog ≤ 1 ∧
    (runGetMetadataCached storesFlaky ["gs://b/o", "gs://b/o"]).1 =
      [JVal.null, JVal.null] ∧
    get_metadata_body (storesFlaky 1) "gs://b/o" = JVal.obj [("author", JVal.str "x")] := by
  have h := c10_metadata_lookup_memoized storesFlaky ["gs://b/o", "gs://b/o"] 0 1
    "gs://b/o" rfl rfl (by omega)
  exact ⟨h.1, h.2, rfl, rfl⟩
